import Mathlib

/-!
Shallow embedding of `model.py` from the malicious-URLs detection repository:
the `UrlDetector` class (architecture builders, input padding, the
fit/evaluate/predict wrappers and the custom F1 metric), together with
theorems settling the specification claims about it.

Machine floats are modelled by exact arithmetic: the batch metrics are stated
over a general linear ordered field (instantiated at `ℚ` for concrete
evaluation and at `ℝ` inside `evaluate`), and network activations over `ℝ`.
Library calls (`keras.preprocessing.sequence.pad_sequences`, `K.clip`,
`K.round`, `K.epsilon`, `model.fit` with `validation_split`, the layer
forward passes in inference mode) are embedded with their documented
semantics, since the repository delegates them to the framework.
-/

namespace MaliciousUrls

/-! ### Keras backend primitives used by `model.py` -/

section BackendOps

variable {α : Type} [LinearOrderedField α] [FloorRing α]

/-- `K.clip(x, lo, hi)`: element-wise clipping of `x` into `[lo, hi]`. -/
def clip (x lo hi : α) : α := min (max x lo) hi

/-- `K.round(x)`: TensorFlow rounding to the nearest integer, halves going
to the nearest even integer. -/
def tfRound (x : α) : α :=
  if x - (⌊x⌋ : α) < 1 / 2 then (⌊x⌋ : α)
  else if 1 / 2 < x - (⌊x⌋ : α) then (⌊x⌋ : α) + 1
  else if 2 ∣ ⌊x⌋ then (⌊x⌋ : α) else (⌊x⌋ : α) + 1

/-- `K.epsilon()`: the backend fuzz constant, `1e-07`. -/
def kEpsilon : α := 1 / 10000000

end BackendOps

/-! ### The custom F1 metric (`UrlDetector.f1`, model.py lines 181-213) -/

section Metric

variable {α : Type} [LinearOrderedField α] [FloorRing α]

/-- `K.sum(K.round(K.clip(y_true * y_pred, 0, 1)))` (model.py lines 193, 206). -/
def true_positives (y_true y_pred : List α) : α :=
  (List.zipWith (fun t p => tfRound (clip (t * p) 0 1)) y_true y_pred).sum

/-- `K.sum(K.round(K.clip(y_true, 0, 1)))` (model.py line 194). -/
def possible_positives (y_true : List α) : α :=
  (y_true.map fun t => tfRound (clip t 0 1)).sum

/-- The nested `recall` of `UrlDetector.f1` (model.py lines 185-196). -/
def recallOf (y_true y_pred : List α) : α :=
  true_positives y_true y_pred / (possible_positives y_true + kEpsilon)

/-- `K.sum(K.round(K.clip(y_pred, 0, 1)))` (model.py line 207). -/
def predicted_positives (y_pred : List α) : α :=
  (y_pred.map fun p => tfRound (clip p 0 1)).sum

/-- The nested `precision` of `UrlDetector.f1` (model.py lines 198-209). -/
def precisionOf (y_true y_pred : List α) : α :=
  true_positives y_true y_pred / (predicted_positives y_pred + kEpsilon)

/-- `UrlDetector.f1` (model.py lines 181-213):
`2*((precision*recall)/(precision+recall+K.epsilon()))`. -/
def f1 (y_true y_pred : List α) : α :=
  2 * ((precisionOf y_true y_pred * recallOf y_true y_pred) /
    (precisionOf y_true y_pred + recallOf y_true y_pred + kEpsilon))

end Metric

/-! ### Input padding (`_get_padded_docs`, model.py lines 121-124) -/

/-- One sequence of `keras.preprocessing.sequence.pad_sequences` with
`padding='post'` and the default `truncating='pre'`: keep the LAST `maxlen`
entries (python `seq[-maxlen:]`), then right-pad with the value `0` up to
length `maxlen`. -/
def pad_sequences_one (maxlen : ℕ) (seq : List ℤ) : List ℤ :=
  let trunc := seq.drop (seq.length - maxlen)
  trunc ++ List.replicate (maxlen - trunc.length) 0

/-- `pad_sequences(encoded_docs, maxlen, padding='post')` over a batch. -/
def pad_sequences (maxlen : ℕ) (sequences : List (List ℤ)) : List (List ℤ) :=
  sequences.map (pad_sequences_one maxlen)

/-! ### Layer forward passes (inference mode, over `ℝ`) -/

/-- Logistic activation of the final `Dense(1, activation='sigmoid')` units. -/
noncomputable def sigmoid (x : ℝ) : ℝ := 1 / (1 + Real.exp (-x))

/-- `activation='relu'`. -/
noncomputable def relu (x : ℝ) : ℝ := max x 0

/-- `Dropout(0.5)` at inference time is the identity. -/
def dropoutInf (x : ℕ → ℝ) : ℕ → ℝ := x

/-- Learned parameters of a `BatchNormalization` layer. -/
structure BNWeights where
  gamma : ℕ → ℝ
  beta : ℕ → ℝ
  moving_mean : ℕ → ℝ
  moving_var : ℕ → ℝ

/-- Keras `BatchNormalization` default epsilon. -/
noncomputable def bnEpsilon : ℝ := 1 / 1000

/-- `BatchNormalization` at inference time, per feature. -/
noncomputable def bnInf (w : BNWeights) (x : ℕ → ℝ) : ℕ → ℝ := fun i =>
  w.gamma i * (x i - w.moving_mean i) / Real.sqrt (w.moving_var i + bnEpsilon) + w.beta i

/-- Value of a time-major sequence of feature vectors, `0` outside. -/
def seqGet (xs : List (List ℝ)) (t c : ℕ) : ℝ := (xs.getD t []).getD c 0

/-- `Convolution1D(nb_filter, filter_length, border_mode='same',
activation='relu', subsample_length=1)` on a length-`len` input with `nChan`
channels, with TensorFlow SAME zero padding (left pad `(k-1)/2`). -/
noncomputable def convSame (len nChan filterLength : ℕ) (kernel : ℕ → ℕ → ℕ → ℝ)
    (bias : ℕ → ℝ) (x : ℕ → ℕ → ℝ) : ℕ → ℕ → ℝ := fun t f =>
  relu (bias f + ∑ dt ∈ Finset.range filterLength, ∑ c ∈ Finset.range nChan,
    kernel dt c f *
      (if (filterLength - 1) / 2 ≤ t + dt ∧ t + dt < len + (filterLength - 1) / 2
        then x (t + dt - (filterLength - 1) / 2) c else 0))

/-- `_sum_1d` (model.py lines 76-79): `K.sum(x, axis=1)` over the time axis. -/
noncomputable def sum_1d (len : ℕ) (x : ℕ → ℕ → ℝ) : ℕ → ℝ := fun f =>
  ∑ t ∈ Finset.range len, x t f

/-- Learned parameters of one `_get_complete_conv_layer` branch. -/
structure ConvBranchWeights where
  kernel : ℕ → ℕ → ℕ → ℝ
  bias : ℕ → ℝ
  bn : BNWeights

/-- `_get_complete_conv_layer` (model.py lines 61-74): convolution, then
batch normalization, then the summing pool over time, then dropout. -/
noncomputable def complete_conv_layer (maxLen filterLength : ℕ)
    (w : ConvBranchWeights) (x : ℕ → ℕ → ℝ) : ℕ → ℝ :=
  dropoutInf (sum_1d maxLen fun t =>
    bnInf w.bn fun f => convSame maxLen 32 filterLength w.kernel w.bias x t f)

/-- A `Dense` layer with `nIn` inputs and pointwise activation `act`. -/
noncomputable def dense (nIn : ℕ) (kernel : ℕ → ℕ → ℝ) (bias : ℕ → ℝ)
    (act : ℝ → ℝ) (x : ℕ → ℝ) : ℕ → ℝ := fun j =>
  act (bias j + ∑ i ∈ Finset.range nIn, kernel i j * x i)

/-- `merge.Concatenate()` of four `n`-vectors (model.py line 100). -/
def concat4 (n : ℕ) (a b c d : ℕ → ℝ) : ℕ → ℝ := fun i =>
  if i < n then a i else if i < 2 * n then b (i - n)
  else if i < 3 * n then c (i - 2 * n) else d (i - 3 * n)

/-- Learned parameters of the `_build_simple_nn` network. -/
structure SimpleWeights where
  embedding : ℤ → List ℝ
  kernel : List ℝ
  bias : ℝ

/-- Dot product of two flat vectors. -/
def dot (w x : List ℝ) : ℝ := (List.zipWith (fun a b => a * b) w x).sum

/-- `_build_simple_nn` forward pass (model.py lines 51-59):
`Embedding(vocab_size, 32)` then `Flatten()` then `Dense(1, 'sigmoid')`. -/
noncomputable def simpleForward (w : SimpleWeights) (doc : List ℤ) : ℝ :=
  sigmoid (dot w.kernel (doc.map w.embedding).flatten + w.bias)

/-- Learned parameters of the `_build_big_conv_nn` network. -/
structure BigConvWeights where
  embedding : ℤ → List ℝ
  conv2 : ConvBranchWeights
  conv3 : ConvBranchWeights
  conv4 : ConvBranchWeights
  conv5 : ConvBranchWeights
  bn_merged : BNWeights
  dense1_kernel : ℕ → ℕ → ℝ
  dense1_bias : ℕ → ℝ
  bn1 : BNWeights
  dense2_kernel : ℕ → ℕ → ℝ
  dense2_bias : ℕ → ℝ
  bn2 : BNWeights
  dense3_kernel : ℕ → ℕ → ℝ
  dense3_bias : ℕ → ℝ
  bn3 : BNWeights
  out_kernel : ℕ → ℕ → ℝ
  out_bias : ℕ → ℝ

/-- `_build_big_conv_nn` forward pass in inference mode (model.py lines
81-119): embedding, four parallel convolution branches with filter widths
2..5, concatenation, batch normalization, three dense(1024, relu) blocks with
batch normalization and dropout, and a final `Dense(1, 'sigmoid')` unit. -/
noncomputable def bigConvForward (maxLen : ℕ) (w : BigConvWeights) (doc : List ℤ) : ℝ :=
  let emb : ℕ → ℕ → ℝ := seqGet (doc.map w.embedding)
  let conv1 := complete_conv_layer maxLen 2 w.conv2 emb
  let conv2 := complete_conv_layer maxLen 3 w.conv3 emb
  let conv3 := complete_conv_layer maxLen 4 w.conv4 emb
  let conv4 := complete_conv_layer maxLen 5 w.conv5 emb
  let merged := bnInf w.bn_merged (concat4 256 conv1 conv2 conv3 conv4)
  let m1 := dropoutInf (bnInf w.bn1 (dense 1024 w.dense1_kernel w.dense1_bias relu merged))
  let m2 := dropoutInf (bnInf w.bn2 (dense 1024 w.dense2_kernel w.dense2_bias relu m1))
  let m3 := dropoutInf (bnInf w.bn3 (dense 1024 w.dense3_kernel w.dense3_bias relu m2))
  dense 1024 w.out_kernel w.out_bias sigmoid m3 0

/-! ### The `UrlDetector` class state and methods -/

/-- The value of `self.model`: the empty `Sequential()` graph made at
construction (model.py line 34), or one of the two compiled networks. -/
inductive NetModel where
  | emptySequential
  | simpleNN (w : SimpleWeights)
  | bigConvNN (w : BigConvWeights)

/-- The fields a `UrlDetector` instance owns (model.py lines 32-34). -/
structure UrlDetector where
  max_length : ℕ
  vocab_size : ℕ
  model : NetModel

/-- The weights the framework draws when a builder compiles a fresh
network; passed explicitly since the python relies on the global RNG. -/
structure WeightInit where
  simple : SimpleWeights
  big : BigConvWeights

/-- `build_model` (model.py lines 37-49): two recognized names, no
else-branch. -/
def UrlDetector.build_model (self : UrlDetector) (winit : WeightInit)
    (model : String) : UrlDetector :=
  if model = "simple_nn" then { self with model := NetModel.simpleNN winit.simple }
  else if model = "big_conv_nn" then { self with model := NetModel.bigConvNN winit.big }
  else self

/-- `__init__` (model.py lines 18-35): store the hyperparameters, create the
empty `Sequential()`, then call `build_model`. -/
def UrlDetector.init (winit : WeightInit) (model : String) (vocab_size : ℕ := 87)
    (max_length : ℕ := 200) : UrlDetector :=
  UrlDetector.build_model
    { max_length := max_length, vocab_size := vocab_size
      model := NetModel.emptySequential }
    winit model

/-- `_get_padded_docs` (model.py lines 121-124). -/
def UrlDetector.get_padded_docs (self : UrlDetector)
    (encoded_docs : List (List ℤ)) : List (List ℤ) :=
  pad_sequences self.max_length encoded_docs

/-- `self.model.predict_proba(padded_docs)`: one forward pass per padded
document; the empty uncompiled `Sequential()` raises instead. -/
noncomputable def modelPredictProba (maxLen : ℕ) :
    NetModel → List (List ℤ) → Option (List ℝ)
  | NetModel.emptySequential, _ => none
  | NetModel.simpleNN w, ds => some (ds.map (simpleForward w))
  | NetModel.bigConvNN w, ds => some (ds.map (bigConvForward maxLen w))

/-- `predict_proba` (model.py lines 158-162). -/
noncomputable def UrlDetector.predict_proba (self : UrlDetector)
    (encoded_docs : List (List ℤ)) : Option (List ℝ) :=
  modelPredictProba self.max_length self.model (self.get_padded_docs encoded_docs)

/-- `predict_proba` as a state transformer: the method body reads `self`
(`self.max_length` through `_get_padded_docs`, then `self.model`) and
assigns to no attribute, so the post-state is the pre-state. -/
noncomputable def UrlDetector.predict_proba_method (self : UrlDetector)
    (encoded_docs : List (List ℤ)) : Option (List ℝ) × UrlDetector :=
  (self.predict_proba encoded_docs, self)

/-- Record of the observable effects of one `fit` call. -/
structure FitEffects where
  made_log_dir : Bool
  tensorboard_log_dir : String
  train_x : List (List ℤ)
  train_y : List ℚ
  val_x : List (List ℤ)
  val_y : List ℚ
  epochs_run : ℕ
  per_epoch_summaries : ℕ

/-- `fit` (model.py lines 126-149), as the record of its effects.  Keras
`validation_split=0.2` holds out the samples from index
`int(n * (1 - 0.2))` = `n * 8 / 10` onwards, training on the ones before;
the TensorBoard callback writes one scalar summary set per epoch under
`training_logs`, which is created when absent. -/
def UrlDetector.fit (self : UrlDetector) (encoded_docs : List (List ℤ))
    (labels : List ℚ) (epochs : ℕ) (training_logs : String)
    (log_dir_exists : Bool) : FitEffects :=
  let padded_docs := self.get_padded_docs encoded_docs
  let split_at := padded_docs.length * 8 / 10
  { made_log_dir := !log_dir_exists
    tensorboard_log_dir := training_logs
    train_x := padded_docs.take split_at
    train_y := labels.take split_at
    val_x := padded_docs.drop split_at
    val_y := labels.drop split_at
    epochs_run := epochs
    per_epoch_summaries := epochs }

/-- The metrics each architecture compiles: `metrics=['acc']` for
`_build_simple_nn` (model.py line 58) and `metrics=['acc', self.f1]` for
`_build_big_conv_nn` (model.py line 118). -/
inductive MetricKind where
  | acc
  | f1m

def compiledMetrics : NetModel → List MetricKind
  | NetModel.emptySequential => []
  | NetModel.simpleNN _ => [MetricKind.acc]
  | NetModel.bigConvNN _ => [MetricKind.acc, MetricKind.f1m]

/-- Keras `'acc'` for a binary sigmoid output: mean of
`equal(y_true, round(y_pred))`. -/
noncomputable def binary_accuracy (y_true y_pred : List ℝ) : ℝ :=
  (List.zipWith (fun t p => if tfRound p = t then (1 : ℝ) else 0) y_true y_pred).sum
    / y_true.length

/-- Keras `binary_crossentropy` with its output clipping. -/
noncomputable def binary_crossentropy (y_true y_pred : List ℝ) : ℝ :=
  (List.zipWith (fun t p =>
    -(t * Real.log (clip p kEpsilon (1 - kEpsilon)) +
      (1 - t) * Real.log (1 - clip p kEpsilon (1 - kEpsilon)))) y_true y_pred).sum
    / y_true.length

noncomputable def metricValue : MetricKind → List ℝ → List ℝ → ℝ
  | MetricKind.acc, ys, ps => binary_accuracy ys ps
  | MetricKind.f1m, ys, ps => f1 ys ps

/-- `self.model.evaluate(padded_docs, labels)`: the list of returned scalars,
the loss followed by one value per compiled metric (`none` for the empty
uncompiled graph, which raises). -/
noncomputable def model_evaluate_scalars (maxLen : ℕ) (net : NetModel)
    (padded_docs : List (List ℤ)) (labels : List ℝ) : Option (List ℝ) :=
  (modelPredictProba maxLen net padded_docs).map (fun ps =>
    binary_crossentropy labels ps ::
      (compiledMetrics net).map (fun m => metricValue m labels ps))

/-- `evaluate` (model.py lines 151-156): destructures the scalars into
exactly `loss, accuracy, f1score`; any other arity is the python
`ValueError` on unpacking, before anything is printed. -/
noncomputable def UrlDetector.evaluate (self : UrlDetector)
    (encoded_docs : List (List ℤ)) (labels : List ℝ) :
    Except String (ℝ × ℝ × ℝ) :=
  match model_evaluate_scalars self.max_length self.model
      (self.get_padded_docs encoded_docs) labels with
  | some [loss, accuracy, f1score] => Except.ok (loss, accuracy, f1score)
  | _ => Except.error ("not enough values to unpack")

/-! ### Spec-side definitions, for the refinement claims -/

/-- Spec-side count of true positives: pairs with label `1` and prediction
counted positive (strictly above `0.5`). -/
def tpCount : List ℚ → List ℚ → ℕ
  | t :: ts, p :: ps => (if t = 1 ∧ 1 / 2 < p then 1 else 0) + tpCount ts ps
  | _, _ => 0

/-- Spec-side count of false positives: label `0`, prediction positive. -/
def fpCount : List ℚ → List ℚ → ℕ
  | t :: ts, p :: ps => (if t = 0 ∧ 1 / 2 < p then 1 else 0) + fpCount ts ps
  | _, _ => 0

/-- Spec-side count of false negatives: label `1`, prediction not positive. -/
def fnCount : List ℚ → List ℚ → ℕ
  | t :: ts, p :: ps => (if t = 1 ∧ p ≤ 1 / 2 then 1 else 0) + fnCount ts ps
  | _, _ => 0

/-- Modelled from the spec's words: `F1 = 2·P·R/(P+R+ε)` with
`P = TP/(TP+FP+ε)` and `R = TP/(TP+FN+ε)`, a prediction counting as
positive when it exceeds `0.5`. -/
def f1_spec (y_true y_pred : List ℚ) : ℚ :=
  let tp : ℚ := tpCount y_true y_pred
  let p := tp / (tp + fpCount y_true y_pred + kEpsilon)
  let r := tp / (tp + fnCount y_true y_pred + kEpsilon)
  2 * (p * r / (p + r + kEpsilon))

/-- All-zero weights, used to instantiate constructions at concrete inputs. -/
noncomputable def zeroBN : BNWeights :=
  ⟨fun _ => 0, fun _ => 0, fun _ => 0, fun _ => 0⟩

noncomputable def zeroConvBranch : ConvBranchWeights :=
  ⟨fun _ _ _ => 0, fun _ => 0, zeroBN⟩

noncomputable def zeroWeightInit : WeightInit :=
  ⟨⟨fun _ => [], [], 0⟩,
   ⟨fun _ => [], zeroConvBranch, zeroConvBranch, zeroConvBranch, zeroConvBranch,
    zeroBN, fun _ _ => 0, fun _ => 0, zeroBN, fun _ _ => 0, fun _ => 0, zeroBN,
    fun _ _ => 0, fun _ => 0, zeroBN, fun _ _ => 0, fun _ => 0⟩⟩

/-! ### Helper lemmas -/

theorem pad_sequences_one_short (maxlen : ℕ) (seq : List ℤ)
    (h : seq.length ≤ maxlen) :
    pad_sequences_one maxlen seq = seq ++ List.replicate (maxlen - seq.length) 0 := by
  simp [pad_sequences_one, Nat.sub_eq_zero_of_le h]

theorem pad_sequences_one_long (maxlen : ℕ) (seq : List ℤ)
    (h : maxlen < seq.length) :
    pad_sequences_one maxlen seq = seq.drop (seq.length - maxlen) := by
  simp [pad_sequences_one, Nat.sub_sub_self h.le]

theorem length_pad_sequences_one (maxlen : ℕ) (seq : List ℤ) :
    (pad_sequences_one maxlen seq).length = maxlen := by
  simp [pad_sequences_one]
  omega

theorem length_get_padded_docs (s : UrlDetector) (docs : List (List ℤ)) :
    (s.get_padded_docs docs).length = docs.length := by
  simp [UrlDetector.get_padded_docs, pad_sequences]

section MetricLemmas

variable {α : Type} [LinearOrderedField α] [FloorRing α]

theorem tfRound_clip01 (x : α) :
    tfRound (clip x 0 1) = if 1 / 2 < x then 1 else 0 := by
  unfold clip tfRound
  rcases le_or_lt x (1 / 2) with hx | hx
  · have h0 : (0 : α) ≤ max x 0 := le_max_right _ _
    have h1 : max x 0 ≤ 1 / 2 := max_le hx (by norm_num)
    have hc : min (max x 0) 1 = max x 0 := min_eq_left (h1.trans (by norm_num))
    have hfloor : ⌊max x 0⌋ = 0 :=
      Int.floor_eq_zero_iff.mpr ⟨h0, lt_of_le_of_lt h1 (by norm_num)⟩
    rw [hc, hfloor, if_neg (not_lt.mpr hx)]
    push_cast
    split_ifs with h2 h3 h4
    · rfl
    · exact absurd h3 (by simp; linarith)
    · rfl
    · exact absurd (by decide : (2 : ℤ) ∣ 0) h4
  · have hx0 : (0 : α) < x := lt_trans (by norm_num) hx
    have hmax : max x 0 = x := max_eq_left hx0.le
    rw [if_pos hx, hmax]
    rcases lt_trichotomy x 1 with hx1 | hx1 | hx1
    · have hc : min x 1 = x := min_eq_left hx1.le
      have hfloor : ⌊x⌋ = 0 := Int.floor_eq_zero_iff.mpr ⟨hx0.le, hx1⟩
      rw [hc, hfloor]
      push_cast
      rw [if_neg (by simp; linarith), if_pos (by simpa using hx)]
      norm_num
    · rw [hx1]
      norm_num [Int.floor_one]
    · have hc : min x 1 = 1 := min_eq_right hx1.le
      rw [hc]
      norm_num [Int.floor_one]

theorem ind_sum_nonneg {β : Type} (l : List β) (P : β → Prop) [DecidablePred P] :
    (0 : α) ≤ (l.map fun b => if P b then (1 : α) else 0).sum := by
  apply List.sum_nonneg
  intro x hx
  obtain ⟨b, _, rfl⟩ := List.mem_map.mp hx
  split_ifs <;> norm_num

theorem ind_sum_eq_zero {β : Type} (l : List β) (P : β → Prop) [DecidablePred P] :
    ((l.map fun b => if P b then (1 : α) else 0).sum = 0) ↔ ∀ b ∈ l, ¬ P b := by
  induction l with
  | nil => simp
  | cons a t ih =>
    simp only [List.map_cons, List.sum_cons, List.mem_cons]
    rw [add_eq_zero_iff_of_nonneg (by split_ifs <;> norm_num) (ind_sum_nonneg t P)]
    constructor
    · rintro ⟨h1, h2⟩ b hb
      rcases hb with rfl | hb
      · intro hP
        rw [if_pos hP] at h1
        exact one_ne_zero h1
      · exact (ih.mp h2) b hb
    · intro h
      exact ⟨by rw [if_neg (h a (Or.inl rfl))], ih.mpr fun b hb => h b (Or.inr hb)⟩

theorem ind_sum_all {β : Type} (l : List β) (P : β → Prop) [DecidablePred P]
    (h : ∀ b ∈ l, P b) :
    (l.map fun b => if P b then (1 : α) else 0).sum = l.length := by
  induction l with
  | nil => simp
  | cons a t ih =>
    simp only [List.map_cons, List.sum_cons, List.length_cons]
    rw [if_pos (h a (List.mem_cons_self a t)),
      ih fun b hb => h b (List.mem_cons_of_mem a hb)]
    push_cast
    ring

theorem zipWith_eq_map_zip {β γ δ : Type} (f : β → γ → δ) :
    ∀ (l1 : List β) (l2 : List γ),
      List.zipWith f l1 l2 = (l1.zip l2).map fun q => f q.1 q.2
  | [], _ => by simp
  | _ :: _, [] => by simp
  | a :: t1, b :: t2 => by
    simp [List.zip_cons_cons, zipWith_eq_map_zip f t1 t2]

theorem true_positives_eq (yt yp : List α) :
    true_positives yt yp =
      ((yt.zip yp).map fun q => if 1 / 2 < q.1 * q.2 then (1 : α) else 0).sum := by
  unfold true_positives
  rw [zipWith_eq_map_zip]
  simp only [tfRound_clip01]

theorem possible_positives_eq (l : List α) :
    possible_positives l = (l.map fun t => if 1 / 2 < t then (1 : α) else 0).sum := by
  unfold possible_positives
  simp only [tfRound_clip01]

theorem predicted_positives_eq (l : List α) :
    predicted_positives l = (l.map fun p => if 1 / 2 < p then (1 : α) else 0).sum := by
  unfold predicted_positives
  simp only [tfRound_clip01]

end MetricLemmas

theorem true_positives_eq_tpCount :
    ∀ (yt yp : List ℚ), (∀ t ∈ yt, t = 0 ∨ t = 1) →
      true_positives yt yp = tpCount yt yp
  | [], yp, _ => by cases yp <;> simp [true_positives, tpCount]
  | t :: ts, [], _ => by simp [true_positives, tpCount]
  | t :: ts, p :: ps, hlab => by
    have ih := true_positives_eq_tpCount ts ps
      fun x hx => hlab x (List.mem_cons_of_mem _ hx)
    have hh : true_positives (t :: ts) (p :: ps) =
        tfRound (clip (t * p) 0 1) + true_positives ts ps := by
      simp [true_positives]
    rw [hh, tfRound_clip01, ih]
    rcases hlab t (List.mem_cons_self t ts) with h0 | h1
    · subst h0
      push_cast [tpCount]
      norm_num
    · subst h1
      by_cases hp : (1 : ℚ) / 2 < p
      · push_cast [tpCount]
        simp [hp]
      · push_cast [tpCount]
        simp [hp]

theorem possible_positives_eq_counts :
    ∀ (yt yp : List ℚ), yt.length = yp.length → (∀ t ∈ yt, t = 0 ∨ t = 1) →
      possible_positives yt = ((tpCount yt yp + fnCount yt yp : ℕ) : ℚ)
  | [], [], _, _ => by simp [possible_positives, tpCount, fnCount]
  | [], p :: ps, h, _ => by simp at h
  | t :: ts, [], h, _ => by simp at h
  | t :: ts, p :: ps, h, hlab => by
    have ih := possible_positives_eq_counts ts ps (by simpa using h)
      fun x hx => hlab x (List.mem_cons_of_mem _ hx)
    have hh : possible_positives (t :: ts) =
        tfRound (clip t 0 1) + possible_positives ts := by
      simp [possible_positives]
    rw [hh, tfRound_clip01, ih]
    rcases hlab t (List.mem_cons_self t ts) with h0 | h1
    · subst h0
      push_cast [tpCount, fnCount]
      split_ifs <;> first | ring1 | (exfalso; (try simp_all) <;> linarith)
    · subst h1
      push_cast [tpCount, fnCount]
      split_ifs <;> first | ring1 | (exfalso; (try simp_all) <;> linarith)

theorem predicted_positives_eq_counts :
    ∀ (yt yp : List ℚ), yt.length = yp.length → (∀ t ∈ yt, t = 0 ∨ t = 1) →
      predicted_positives yp = ((tpCount yt yp + fpCount yt yp : ℕ) : ℚ)
  | [], [], _, _ => by simp [predicted_positives, tpCount, fpCount]
  | [], p :: ps, h, _ => by simp at h
  | t :: ts, [], h, _ => by simp at h
  | t :: ts, p :: ps, h, hlab => by
    have ih := predicted_positives_eq_counts ts ps (by simpa using h)
      fun x hx => hlab x (List.mem_cons_of_mem _ hx)
    have hh : predicted_positives (p :: ps) =
        tfRound (clip p 0 1) + predicted_positives ps := by
      simp [predicted_positives]
    rw [hh, tfRound_clip01, ih]
    rcases hlab t (List.mem_cons_self t ts) with h0 | h1
    · subst h0
      push_cast [tpCount, fpCount]
      split_ifs <;> first | ring1 | (exfalso; (try simp_all) <;> linarith)
    · subst h1
      push_cast [tpCount, fpCount]
      split_ifs <;> first | ring1 | (exfalso; (try simp_all) <;> linarith)

theorem possible_positives_all_one (l : List ℚ) (h : ∀ t ∈ l, t = 1) :
    possible_positives l = l.length := by
  rw [possible_positives_eq]
  exact ind_sum_all l _ fun t ht => by rw [h t ht]; norm_num

theorem predicted_positives_all_pos (l : List ℚ) (h : ∀ p ∈ l, 1 / 2 < p) :
    predicted_positives l = l.length := by
  rw [predicted_positives_eq]
  exact ind_sum_all l _ h

theorem true_positives_all (yt yp : List ℚ) (hlen : yt.length = yp.length)
    (h1 : ∀ t ∈ yt, t = 1) (h2 : ∀ p ∈ yp, 1 / 2 < p) :
    true_positives yt yp = yt.length := by
  rw [true_positives_eq, ind_sum_all _ _ ?hall]
  · simp [List.length_zip, hlen]
  · intro q hq
    obtain ⟨a, b⟩ := q
    obtain ⟨ha, hb⟩ := List.of_mem_zip hq
    rw [h1 a ha, one_mul]
    exact h2 b hb

/-! ### Claim theorems -/

/-- C1, counterexample: the encoded document `[1, 2, 3]` with `max_length = 2`
is padded to its LAST two entries `[2, 3]`, not its first two entries
(`keras pad_sequences` defaults to `truncating='pre'`), so the padded form is
not the first `max_length` entries of the document. -/
theorem C1_counterexample :
    UrlDetector.get_padded_docs ⟨2, 87, NetModel.emptySequential⟩ [[1, 2, 3]] = [[2, 3]] ∧
    UrlDetector.get_padded_docs ⟨2, 87, NetModel.emptySequential⟩ [[1, 2, 3]] ≠
      [([1, 2, 3] : List ℤ).take 2] := by
  constructor
  · rfl
  · decide

/-- C1 (amended): for every encoded document `D` with length strictly greater
than `max_length`, the padded form produced by `_get_padded_docs` (and hence
the input fed to the network by `fit`, `evaluate` and `predict_proba`) is the
LAST `max_length` entries of `D` — truncation of the head, not wraparound and
not an error — and it has exactly `max_length` entries. -/
theorem C1_long_docs_truncated (s : UrlDetector) (pre post : List (List ℤ))
    (D : List ℤ) (hlong : s.max_length < D.length) :
    s.get_padded_docs (pre ++ D :: post) =
      s.get_padded_docs pre ++
        D.drop (D.length - s.max_length) :: s.get_padded_docs post ∧
    (D.drop (D.length - s.max_length)).length = s.max_length := by
  constructor
  · simp [UrlDetector.get_padded_docs, pad_sequences, pad_sequences_one_long _ _ hlong]
  · simp [List.length_drop, Nat.sub_sub_self hlong.le]

theorem C1_long_docs_truncated_witness :
    UrlDetector.get_padded_docs ⟨2, 87, NetModel.emptySequential⟩ [[5, 6, 7]] =
      UrlDetector.get_padded_docs ⟨2, 87, NetModel.emptySequential⟩ [] ++
        ([5, 6, 7] : List ℤ).drop (([5, 6, 7] : List ℤ).length - 2) ::
          UrlDetector.get_padded_docs ⟨2, 87, NetModel.emptySequential⟩ [] ∧
    (([5, 6, 7] : List ℤ).drop (([5, 6, 7] : List ℤ).length - 2)).length = 2 :=
  C1_long_docs_truncated ⟨2, 87, NetModel.emptySequential⟩ [] [] [5, 6, 7] (by decide)

/-- C2: for every encoded document `D` with length at most `max_length`, the
padded form produced by `_get_padded_docs` has exactly `max_length` entries,
starts with `D`, and fills the remaining positions on the right with the
sentinel value `0`. -/
theorem C2_short_docs_padded (s : UrlDetector) (pre post : List (List ℤ))
    (D : List ℤ) (hshort : D.length ≤ s.max_length) :
    s.get_padded_docs (pre ++ D :: post) =
      s.get_padded_docs pre ++
        (D ++ List.replicate (s.max_length - D.length) 0) :: s.get_padded_docs post ∧
    (D ++ List.replicate (s.max_length - D.length) 0).length = s.max_length ∧
    (D ++ List.replicate (s.max_length - D.length) 0).take D.length = D := by
  refine ⟨?_, ?_, List.take_left ..⟩
  · simp [UrlDetector.get_padded_docs, pad_sequences, pad_sequences_one_short _ _ hshort]
  · simp only [List.length_append, List.length_replicate]
    omega

theorem C2_short_docs_padded_witness :
    UrlDetector.get_padded_docs ⟨4, 87, NetModel.emptySequential⟩ [[9, 8]] =
      UrlDetector.get_padded_docs ⟨4, 87, NetModel.emptySequential⟩ [] ++
        (([9, 8] : List ℤ) ++ List.replicate (4 - ([9, 8] : List ℤ).length) 0) ::
          UrlDetector.get_padded_docs ⟨4, 87, NetModel.emptySequential⟩ [] ∧
    (([9, 8] : List ℤ) ++ List.replicate (4 - ([9, 8] : List ℤ).length) 0).length = 4 ∧
    (([9, 8] : List ℤ) ++ List.replicate (4 - ([9, 8] : List ℤ).length) 0).take
      ([9, 8] : List ℤ).length = [9, 8] :=
  C2_short_docs_padded ⟨4, 87, NetModel.emptySequential⟩ [] [] [9, 8] (by decide)

/-- C3: for every pair of label/prediction batches with aligned lengths and
binary labels, the `f1` metric equals `2·P·R/(P+R+ε)` where
`P = TP/(TP+FP+ε)` and `R = TP/(TP+FN+ε)`, with `TP`, `FP`, `FN` counted
from predictions rounded after clipping to `[0,1]` (a prediction above `0.5`
counts as positive) and `ε` the backend smoothing constant. -/
theorem C3_f1_matches_spec (y_true y_pred : List ℚ)
    (hlen : y_true.length = y_pred.length)
    (hlab : ∀ t ∈ y_true, t = 0 ∨ t = 1) :
    f1 y_true y_pred = f1_spec y_true y_pred := by
  have htp := true_positives_eq_tpCount y_true y_pred hlab
  have hposs := possible_positives_eq_counts y_true y_pred hlen hlab
  have hpred := predicted_positives_eq_counts y_true y_pred hlen hlab
  simp only [f1, f1_spec, precisionOf, recallOf, htp, hposs, hpred]
  push_cast
  ring_nf

theorem C3_f1_matches_spec_witness :
    f1 ([1, 0] : List ℚ) [3 / 4, 1 / 4] = f1_spec [1, 0] [3 / 4, 1 / 4] :=
  C3_f1_matches_spec [1, 0] [3 / 4, 1 / 4] rfl (by decide)

/-- C4: for every batch with binary labels having zero positive predictions
or zero actual positives, precision and recall are both `0`, the `f1` metric
evaluates to `0`, and every denominator in precision, recall and the final F1
expression is strictly positive thanks to the added `ε` (no division by
zero). -/
theorem C4_degenerate_batches (y_true y_pred : List ℚ)
    (hlab : ∀ t ∈ y_true, t = 0 ∨ t = 1)
    (hdeg : predicted_positives y_pred = 0 ∨ possible_positives y_true = 0) :
    f1 y_true y_pred = 0 ∧
    precisionOf y_true y_pred = 0 ∧ recallOf y_true y_pred = 0 ∧
    0 < possible_positives y_true + kEpsilon ∧
    0 < predicted_positives y_pred + kEpsilon ∧
    0 < precisionOf y_true y_pred + recallOf y_true y_pred + kEpsilon := by
  have hTP : true_positives y_true y_pred = 0 := by
    rw [true_positives_eq]
    rw [ind_sum_eq_zero]
    intro q hq
    obtain ⟨a, b⟩ := q
    obtain ⟨ha, hb⟩ := List.of_mem_zip hq
    rcases hdeg with hpred | hposs
    · have hall : ∀ p ∈ y_pred, ¬ (1 / 2 < p) :=
        (ind_sum_eq_zero y_pred _).mp (by rw [← predicted_positives_eq]; exact hpred)
      rcases hlab a ha with h0 | h1
      · subst h0
        norm_num
      · subst h1
        rw [one_mul]
        exact hall b hb
    · have hall : ∀ t ∈ y_true, ¬ (1 / 2 < t) :=
        (ind_sum_eq_zero y_true _).mp (by rw [← possible_positives_eq]; exact hposs)
      rcases hlab a ha with h0 | h1
      · subst h0
        norm_num
      · exact absurd (by rw [h1]; norm_num) (hall a ha)
  have hP : precisionOf y_true y_pred = 0 := by
    rw [precisionOf, hTP, zero_div]
  have hR : recallOf y_true y_pred = 0 := by
    rw [recallOf, hTP, zero_div]
  have hposnn : 0 ≤ possible_positives y_true := by
    rw [possible_positives_eq]
    exact ind_sum_nonneg _ _
  have hprednn : 0 ≤ predicted_positives y_pred := by
    rw [predicted_positives_eq]
    exact ind_sum_nonneg _ _
  have heps : (0 : ℚ) < kEpsilon := by norm_num [kEpsilon]
  refine ⟨?_, hP, hR, by linarith, by linarith, ?_⟩
  · rw [f1, hP, hR]
    simp
  · rw [hP, hR]
    simpa using heps

theorem C4_degenerate_batches_witness :
    f1 ([0, 1] : List ℚ) [2 / 5, 1 / 2] = 0 ∧
    precisionOf ([0, 1] : List ℚ) [2 / 5, 1 / 2] = 0 ∧
    recallOf ([0, 1] : List ℚ) [2 / 5, 1 / 2] = 0 ∧
    0 < possible_positives ([0, 1] : List ℚ) + kEpsilon ∧
    0 < predicted_positives ([2 / 5, 1 / 2] : List ℚ) + kEpsilon ∧
    0 < precisionOf ([0, 1] : List ℚ) [2 / 5, 1 / 2] +
      recallOf ([0, 1] : List ℚ) [2 / 5, 1 / 2] + kEpsilon :=
  C4_degenerate_batches [0, 1] [2 / 5, 1 / 2] (by norm_num)
    (Or.inl (by rw [predicted_positives_eq]; norm_num))

/-- C5, counterexample: on the all-positive batch `[1]` with the exactly
matching prediction `[1]`, the `f1` metric is NOT exactly `1`: the added `ε`
in the precision, recall and F1 denominators keeps the value strictly below
`1`. -/
theorem C5_counterexample : f1 ([1] : List ℚ) [1] ≠ 1 := by
  have htp : true_positives ([1] : List ℚ) [1] = 1 := by
    rw [true_positives_eq]
    norm_num
  have hposs : possible_positives ([1] : List ℚ) = 1 := by
    rw [possible_positives_eq]
    norm_num
  have hpred : predicted_positives ([1] : List ℚ) = 1 := by
    rw [predicted_positives_eq]
    norm_num
  rw [f1, precisionOf, recallOf, htp, hposs, hpred]
  norm_num [kEpsilon]

/-- C5 (amended): for every nonempty all-positive batch (every true label
is `1`) on which the rounded predictions exactly match the labels (every
prediction counts as positive), the `f1` metric returns a value strictly
between `1 - 2ε` and `1` — within the smoothing constant of `1`, but never
exactly `1`. -/
theorem C5_all_positive_match (y_true y_pred : List ℚ) (hne : y_true ≠ [])
    (hlen : y_true.length = y_pred.length)
    (hall : ∀ t ∈ y_true, t = 1) (hpos : ∀ p ∈ y_pred, 1 / 2 < p) :
    1 - 2 * kEpsilon < f1 y_true y_pred ∧ f1 y_true y_pred < 1 := by
  have hq1 : (1 : ℚ) ≤ (y_true.length : ℚ) := by
    have h := List.length_pos.mpr hne
    exact_mod_cast h
  have hP : precisionOf y_true y_pred =
      (y_true.length : ℚ) / ((y_true.length : ℚ) + kEpsilon) := by
    rw [precisionOf, true_positives_all y_true y_pred hlen hall hpos,
      predicted_positives_all_pos y_pred hpos, ← hlen]
  have hR : recallOf y_true y_pred =
      (y_true.length : ℚ) / ((y_true.length : ℚ) + kEpsilon) := by
    rw [recallOf, true_positives_all y_true y_pred hlen hall hpos,
      possible_positives_all_one y_true hall]
  set q : ℚ := (y_true.length : ℚ) with hqdef
  have he : kEpsilon = (1 : ℚ) / 10000000 := rfl
  have hd0 : (0 : ℚ) < q + 1 / 10000000 := by linarith
  have hd1 : (0 : ℚ) < 2 * q + 1 / 10000000 * (q + 1 / 10000000) := by nlinarith
  have hf1 : f1 y_true y_pred =
      2 * q ^ 2 / ((q + 1 / 10000000) * (2 * q + 1 / 10000000 * (q + 1 / 10000000))) := by
    rw [f1, hP, hR, he]
    field_simp
    ring
  rw [he, hf1]
  constructor
  · rw [lt_div_iff₀ (by positivity)]
    nlinarith [sq_nonneg q, sq_nonneg (q - 1)]
  · rw [div_lt_one (by positivity)]
    nlinarith [sq_nonneg q, sq_nonneg (q - 1)]

theorem C5_all_positive_match_witness :
    1 - 2 * kEpsilon < f1 ([1] : List ℚ) [1] ∧ f1 ([1] : List ℚ) [1] < 1 :=
  C5_all_positive_match [1] [1] (by simp) rfl (by norm_num) (by norm_num)

theorem sigmoid_nonneg (x : ℝ) : 0 ≤ sigmoid x := by
  unfold sigmoid
  have h := Real.exp_pos (-x)
  positivity

theorem sigmoid_le_one (x : ℝ) : sigmoid x ≤ 1 := by
  unfold sigmoid
  rw [div_le_one (by positivity)]
  linarith [(Real.exp_pos (-x)).le]

/-- C6: for every input batch and for both architectures (`simple_nn` and
`big_conv_nn`), `predict_proba` succeeds, returns exactly one probability per
input document, and every returned probability lies in the closed interval
`[0, 1]` (the final layer of both networks is a single sigmoid unit). -/
theorem C6_probabilities_in_unit_interval (ml vs : ℕ) (w1 : SimpleWeights)
    (w2 : BigConvWeights) (docs : List (List ℤ)) :
    (∃ probs, UrlDetector.predict_proba ⟨ml, vs, NetModel.simpleNN w1⟩ docs = some probs ∧
      probs.length = docs.length ∧ ∀ p ∈ probs, 0 ≤ p ∧ p ≤ 1) ∧
    (∃ probs, UrlDetector.predict_proba ⟨ml, vs, NetModel.bigConvNN w2⟩ docs = some probs ∧
      probs.length = docs.length ∧ ∀ p ∈ probs, 0 ≤ p ∧ p ≤ 1) := by
  constructor
  · refine ⟨_, rfl, ?_, ?_⟩
    · simp [UrlDetector.get_padded_docs, pad_sequences]
    · intro p hp
      obtain ⟨d, _, rfl⟩ := List.mem_map.mp hp
      exact ⟨sigmoid_nonneg _, sigmoid_le_one _⟩
  · refine ⟨_, rfl, ?_, ?_⟩
    · simp [UrlDetector.get_padded_docs, pad_sequences]
    · intro p hp
      obtain ⟨d, _, rfl⟩ := List.mem_map.mp hp
      exact ⟨sigmoid_nonneg _, sigmoid_le_one _⟩

/-- C7: `predict_proba` is a pure function of the model state and its input:
as a state transformer it leaves the state unchanged, and a second call on
the resulting state with the identical input returns the identical result. -/
theorem C7_predict_proba_pure (s : UrlDetector) (docs : List (List ℤ)) :
    (s.predict_proba_method docs).2 = s ∧
    ((s.predict_proba_method docs).2.predict_proba_method docs).1 =
      (s.predict_proba_method docs).1 :=
  ⟨rfl, rfl⟩

/-- C8: for every model name outside `{"simple_nn", "big_conv_nn"}`,
`build_model` matches no branch and returns the state unchanged, and the
constructor therefore leaves `self.model` as the empty `Sequential()` graph
created at construction — no error is raised. -/
theorem C8_unrecognized_name (winit : WeightInit) (s : UrlDetector) (vs ml : ℕ)
    (name : String) (h1 : name ≠ "simple_nn") (h2 : name ≠ "big_conv_nn") :
    s.build_model winit name = s ∧
    (UrlDetector.init winit name vs ml).model = NetModel.emptySequential := by
  constructor
  · simp [UrlDetector.build_model, h1, h2]
  · simp [UrlDetector.init, UrlDetector.build_model, h1, h2]

theorem C8_unrecognized_name_witness :
    UrlDetector.build_model ⟨200, 87, NetModel.emptySequential⟩ zeroWeightInit ("cnn") =
      ⟨200, 87, NetModel.emptySequential⟩ ∧
    (UrlDetector.init zeroWeightInit ("cnn") 87 200).model = NetModel.emptySequential :=
  C8_unrecognized_name zeroWeightInit ⟨200, 87, NetModel.emptySequential⟩ 87 200
    ("cnn") (by decide) (by decide)

/-- C9: `fit` pads the documents, holds out as validation split exactly the
tail slice of the samples from index `⌊0.8·n⌋` onwards, in their given order
(a deterministic tail slice — exactly the last 20% when `n` is a multiple of
5 — never a random sample), trains on the first `⌊0.8·n⌋` samples for the
requested epoch count, emits one scalar summary set per epoch to the
monitoring sink under the given log directory, and creates that directory
when absent. -/
theorem C9_fit_split (s : UrlDetector) (encoded_docs : List (List ℤ))
    (labels : List ℚ) (epochs : ℕ) (training_logs : String)
    (log_dir_exists : Bool) :
    (s.fit encoded_docs labels epochs training_logs log_dir_exists).val_x =
      (s.get_padded_docs encoded_docs).drop (encoded_docs.length * 8 / 10) ∧
    (s.fit encoded_docs labels epochs training_logs log_dir_exists).val_y =
      labels.drop (encoded_docs.length * 8 / 10) ∧
    (s.fit encoded_docs labels epochs training_logs log_dir_exists).train_x =
      (s.get_padded_docs encoded_docs).take (encoded_docs.length * 8 / 10) ∧
    (s.fit encoded_docs labels epochs training_logs log_dir_exists).train_y =
      labels.take (encoded_docs.length * 8 / 10) ∧
    (s.fit encoded_docs labels epochs training_logs log_dir_exists).val_x.length =
      encoded_docs.length - encoded_docs.length * 8 / 10 ∧
    (5 ∣ encoded_docs.length →
      (s.fit encoded_docs labels epochs training_logs log_dir_exists).val_x.length * 5 =
        encoded_docs.length) ∧
    (s.fit encoded_docs labels epochs training_logs log_dir_exists).epochs_run = epochs ∧
    (s.fit encoded_docs labels epochs training_logs log_dir_exists).per_epoch_summaries =
      epochs ∧
    (s.fit encoded_docs labels epochs training_logs log_dir_exists).tensorboard_log_dir =
      training_logs ∧
    (log_dir_exists = false →
      (s.fit encoded_docs labels epochs training_logs log_dir_exists).made_log_dir = true) := by
  have hlen := length_get_padded_docs s encoded_docs
  refine ⟨?_, ?_, ?_, ?_, ?_, ?_, ?_, ?_, ?_, ?_⟩
  · simp [UrlDetector.fit, hlen]
  · simp [UrlDetector.fit, hlen]
  · simp [UrlDetector.fit, hlen]
  · simp [UrlDetector.fit, hlen]
  · simp [UrlDetector.fit, List.length_drop, hlen]
  · intro hdvd
    simp only [UrlDetector.fit, List.length_drop, hlen]
    omega
  · simp [UrlDetector.fit]
  · simp [UrlDetector.fit]
  · simp [UrlDetector.fit]
  · intro h
    simp [UrlDetector.fit, h]

theorem C9_fit_split_witness :
    (UrlDetector.fit ⟨1, 87, NetModel.emptySequential⟩ [[1], [2], [3], [4], [5]]
        [0, 1, 0, 1, 0] 2 ("logs") false).val_x =
      (UrlDetector.get_padded_docs ⟨1, 87, NetModel.emptySequential⟩
        [[1], [2], [3], [4], [5]]).drop
          (([[1], [2], [3], [4], [5]] : List (List ℤ)).length * 8 / 10) ∧
    (UrlDetector.fit ⟨1, 87, NetModel.emptySequential⟩ [[1], [2], [3], [4], [5]]
        [0, 1, 0, 1, 0] 2 ("logs") false).val_y =
      ([0, 1, 0, 1, 0] : List ℚ).drop
        (([[1], [2], [3], [4], [5]] : List (List ℤ)).length * 8 / 10) ∧
    (UrlDetector.fit ⟨1, 87, NetModel.emptySequential⟩ [[1], [2], [3], [4], [5]]
        [0, 1, 0, 1, 0] 2 ("logs") false).train_x =
      (UrlDetector.get_padded_docs ⟨1, 87, NetModel.emptySequential⟩
        [[1], [2], [3], [4], [5]]).take
          (([[1], [2], [3], [4], [5]] : List (List ℤ)).length * 8 / 10) ∧
    (UrlDetector.fit ⟨1, 87, NetModel.emptySequential⟩ [[1], [2], [3], [4], [5]]
        [0, 1, 0, 1, 0] 2 ("logs") false).train_y =
      ([0, 1, 0, 1, 0] : List ℚ).take
        (([[1], [2], [3], [4], [5]] : List (List ℤ)).length * 8 / 10) ∧
    (UrlDetector.fit ⟨1, 87, NetModel.emptySequential⟩ [[1], [2], [3], [4], [5]]
        [0, 1, 0, 1, 0] 2 ("logs") false).val_x.length =
      ([[1], [2], [3], [4], [5]] : List (List ℤ)).length -
        ([[1], [2], [3], [4], [5]] : List (List ℤ)).length * 8 / 10 ∧
    (5 ∣ ([[1], [2], [3], [4], [5]] : List (List ℤ)).length →
      (UrlDetector.fit ⟨1, 87, NetModel.emptySequential⟩ [[1], [2], [3], [4], [5]]
          [0, 1, 0, 1, 0] 2 ("logs") false).val_x.length * 5 =
        ([[1], [2], [3], [4], [5]] : List (List ℤ)).length) ∧
    (UrlDetector.fit ⟨1, 87, NetModel.emptySequential⟩ [[1], [2], [3], [4], [5]]
        [0, 1, 0, 1, 0] 2 ("logs") false).epochs_run = 2 ∧
    (UrlDetector.fit ⟨1, 87, NetModel.emptySequential⟩ [[1], [2], [3], [4], [5]]
        [0, 1, 0, 1, 0] 2 ("logs") false).per_epoch_summaries = 2 ∧
    (UrlDetector.fit ⟨1, 87, NetModel.emptySequential⟩ [[1], [2], [3], [4], [5]]
        [0, 1, 0, 1, 0] 2 ("logs") false).tensorboard_log_dir = ("logs") ∧
    (false = false →
      (UrlDetector.fit ⟨1, 87, NetModel.emptySequential⟩ [[1], [2], [3], [4], [5]]
          [0, 1, 0, 1, 0] 2 ("logs") false).made_log_dir = true) :=
  C9_fit_split ⟨1, 87, NetModel.emptySequential⟩ [[1], [2], [3], [4], [5]]
    [0, 1, 0, 1, 0] 2 ("logs") false

/-- C10: `evaluate` unconditionally destructures the underlying model's
evaluation result into exactly three values; for a `simple_nn` detector,
whose compiled metrics are accuracy only, every call fails on the unpacking
(two scalars against three names) rather than printing results, while for a
`big_conv_nn` detector (accuracy and F1 compiled) the destructuring
succeeds. -/
theorem C10_evaluate_arity (ml vs : ℕ) (w : SimpleWeights) (w' : BigConvWeights)
    (docs : List (List ℤ)) (labels : List ℝ) :
    UrlDetector.evaluate ⟨ml, vs, NetModel.simpleNN w⟩ docs labels =
      Except.error ("not enough values to unpack") ∧
    ∃ loss accuracy f1score,
      UrlDetector.evaluate ⟨ml, vs, NetModel.bigConvNN w'⟩ docs labels =
        Except.ok (loss, accuracy, f1score) :=
  ⟨rfl, _, _, _, rfl⟩

end MaliciousUrls
